import Mathlib

set_option linter.dupNamespace false
set_option linter.unnecessarySimpa false

/-
  Shallow embedding of the go-simple-request library (package request).

  The repository is a fluent HTTP request builder:
    - type Request (the builder) with fields client, method, url, header,
      query, body, Success, Failure;
    - fluent setters (SetHeader, AddHeader, SetQuery, SetBody, SetSuccess,
      SetFailure, Get/Post/Put/Patch/Delete/Head);
    - New (package level and derive form), Request() (materializer),
      Execute/sendRequest/do/decodeResp (executor).

  Go reference semantics are made explicit: header containers, the
  []string backing arrays their value slices point into, and the
  success/failure shape objects live in a World (a heap of containers),
  and builder fields that are Go references (the http.Header map, the
  interface values passed to SetSuccess/SetFailure, the http client)
  are modelled as indices into that heap (the client by an index that is
  never dereferenced in the embedding: the transport behaviour is passed
  separately as a function). Header values are stored as Go slice
  headers (array reference, length, capacity) and AddHeader appends with
  the Go runtime rule (write in place while spare capacity remains,
  reallocate with doubled capacity otherwise), because the derive
  operation copies the map entries as slice values and therefore shares
  the backing arrays with the source container.

  External collaborators (net/url, net/http request construction,
  encoding/json, go-querystring) are modelled executably and minimally,
  following their actual behaviour on the inputs this package hands them:
    - a URL string parses iff it has no ASCII control byte; it splits at
      the first question mark into base and raw query;
    - http.NewRequest yields a descriptor with an EMPTY header map;
    - query.Values maps a nil interface to an empty value set with a nil
      error (its documented nil handling), an encodable object to its
      pair list, and a non-encodable value to an error;
    - url.Values.Encode sorts pairs by key and joins them with ampersands;
    - json.Marshal and json.Unmarshal are modelled on opaque payloads:
      a body value either marshals to given bytes or fails; a response
      body unmarshals iff it is well-formed in the model (braces around
      the text), in which case the target shape object receives it.
-/

/-- Error values returned by the modelled collaborators and by the
package itself. -/
inductive GoError where
  | marshalErr
  | parseErr (u : String)
  | unmarshalErr (b : String)
  | transportErr (m : String)
  | bodyReadErr
  | wrapped (pfx : String) (inner : GoError)
deriving DecidableEq, Repr

/-- A byte of a header field name that Go textproto accepts: ASCII
alphanumerics and the token punctuation set. -/
def validHeaderFieldByte (c : Char) : Bool :=
  c.isAlphanum || [33, 35, 36, 37, 38, 39, 42, 43, 45, 46, 94, 95, 96, 124, 126].contains c.toNat

/-- Model of textproto.CanonicalMIMEHeaderKey: if every byte is a valid
header field byte, uppercase the first letter and each letter following
a hyphen and lowercase the rest; otherwise return the key unchanged. -/
def canonicalKey (s : String) : String :=
  if s.toList.all validHeaderFieldByte then
    String.mk ((s.toList.foldl
      (fun (acc : List Char × Bool) c =>
        (acc.1 ++ [if acc.2 then c.toUpper else c.toLower], c = '-')) ([], true)).1)
  else s

/-- A header multimap read as plain content: canonical keys mapped to
ordered value lists. Used for the descriptor header (http.NewRequest
makes a fresh empty one that this package never mutates) and for the
header of a transport reply, and as the observable content of a builder
header container. Entry order is a modelling artifact (Go maps are
unordered); per-key value order is significant, as in Go. -/
structure Header where
  entries : List (String × List String)
deriving DecidableEq, Repr

/-- A Go []string slice header: backing array reference, length and
capacity. The builder header map stores these as its values, and the
derive operation copies them as values, sharing the backing arrays. -/
structure GoSlice where
  arr : Nat
  len : Nat
  cap : Nat
deriving DecidableEq, Repr

/-- The nil []string slice: zero length and capacity; its array
reference is never read or written. -/
def nilSlice : GoSlice := ⟨0, 0, 0⟩

/-- A builder-side http.Header container: canonical keys mapped to
[]string slice headers into the backing-array heap. -/
structure HeaderMap where
  entries : List (String × GoSlice)
deriving DecidableEq, Repr

/-- Look up the slice stored under a canonical key. -/
def lookupEntry (ck : String) : List (String × GoSlice) → Option GoSlice
  | [] => none
  | (k0, s) :: rest => if k0 = ck then some s else lookupEntry ck rest

/-- Store a slice under a canonical key, replacing or creating the
entry (Go map assignment). -/
def setEntrySlice (ck : String) (s : GoSlice) :
    List (String × GoSlice) → List (String × GoSlice)
  | [] => [(ck, s)]
  | (k0, s0) :: rest =>
    if k0 = ck then (k0, s) :: rest else (k0, s0) :: setEntrySlice ck s rest

/-- A URL byte net/url accepts in this model: no ASCII control bytes. -/
def validURLChar (c : Char) : Bool :=
  31 < c.toNat && c.toNat != 127

/-- Model of a parsed net/url URL: the part before the first question
mark and the raw query after it. -/
structure URL where
  base : String
  rawQuery : String
deriving DecidableEq, Repr

/-- Split a character list at its first question mark: the part before
and the part after. Without a question mark the second part is empty. -/
def splitAtQuestion : List Char → List Char × List Char
  | [] => ([], [])
  | c :: rest =>
    if c = '?' then ([], rest)
    else
      let p := splitAtQuestion rest
      (c :: p.1, p.2)

/-- Model of url.Parse: fails on control bytes, otherwise splits at the
first question mark into base and raw query. -/
def parseURL (s : String) : Option URL :=
  if s.toList.all validURLChar then
    let p := splitAtQuestion s.toList
    some (URL.mk (String.mk p.1) (String.mk p.2))
  else none

/-- Model of URL.String: reattach the raw query when it is nonempty. -/
def URL.string (u : URL) : String :=
  u.base ++ (if u.rawQuery = "" then "" else "?" ++ u.rawQuery)

/-- The opaque object stored by SetQuery, as go-querystring sees it:
either an object encoding to a fixed pair list, or a value on which
query.Values fails. -/
inductive QueryVal where
  | obj (pairs : List (String × String))
  | bad
deriving DecidableEq, Repr

/-- Model of go-querystring query.Values, including its nil handling:
a nil interface yields an empty value set and a nil error. -/
def queryValues : Option QueryVal → Except GoError (List (String × String))
  | none => .ok []
  | some (.obj ps) => .ok ps
  | some .bad => .error .marshalErr

/-- The opaque object stored by SetBody, as encoding/json sees it:
either marshals to the given bytes or fails. -/
inductive BodyVal where
  | obj (bytes : String)
  | bad
deriving DecidableEq, Repr

/-- Model of json.Marshal on the stored body object. -/
def jsonMarshal : BodyVal → Except GoError String
  | .obj s => .ok s
  | .bad => .error .marshalErr

/-- Byte-wise string order used by url.Values.Encode (sort.Strings). -/
def charListLe : List Char → List Char → Bool
  | [], _ => true
  | _ :: _, [] => false
  | a :: as, b :: bs => if a = b then charListLe as bs else decide (a < b)

def strLe (a b : String) : Bool := charListLe a.data b.data

def insertPair (p : String × String) : List (String × String) → List (String × String)
  | [] => [p]
  | q :: rest => if strLe p.1 q.1 then p :: q :: rest else q :: insertPair p rest

def sortPairs : List (String × String) → List (String × String)
  | [] => []
  | p :: rest => insertPair p (sortPairs rest)

/-- Model of url.Values.Encode: key-sorted ampersand-joined pairs. -/
def encodeValues (ps : List (String × String)) : String :=
  String.intercalate "&" ((sortPairs ps).map (fun p => p.1 ++ "=" ++ p.2))

/-- A shape object (the target of SetSuccess/SetFailure): it records the
body text a successful unmarshal wrote into it, if any. -/
structure ShapeObj where
  decoded : Option String
deriving DecidableEq, Repr

/-- The heap: backing arrays for header value slices (each array is kept
at physical length equal to its capacity, spare cells holding the empty
string like Go zero values), header containers, shape objects, and a
count of allocated http clients. -/
structure World where
  arrays : List (List String)
  headers : List HeaderMap
  shapes : List ShapeObj
  clients : Nat
deriving DecidableEq, Repr

def World.arrAt (w : World) (i : Nat) : List String := w.arrays.getD i []

def World.hmAt (w : World) (i : Nat) : HeaderMap := w.headers.getD i (HeaderMap.mk [])

/-- The values a slice makes observable: the first len cells of its
backing array. -/
def World.sliceVals (w : World) (s : GoSlice) : List String := (w.arrAt s.arr).take s.len

/-- The observable content of a builder header container: each stored
key with the value list read through its slice. -/
def World.headerContent (w : World) (hi : Nat) : List (String × List String) :=
  (w.hmAt hi).entries.map (fun e => (e.1, w.sliceVals e.2))

/-- Model of Go append(s, v) on a []string: when spare capacity remains,
write v into the (possibly shared) backing array at index len and bump
the length; otherwise allocate a fresh backing array of doubled capacity
(1 from nil; the small-slice doubling regime, which is all this package
exercises), copy the len elements and add v. Returns the updated heap
and the new slice header. -/
def appendSlice (w : World) (s : GoSlice) (v : String) : World × GoSlice :=
  if s.len < s.cap then
    ({ w with arrays := w.arrays.set s.arr ((w.arrAt s.arr).set s.len v) },
     ⟨s.arr, s.len + 1, s.cap⟩)
  else
    let newCap := if s.cap = 0 then 1 else 2 * s.cap
    let newArr := ((w.arrAt s.arr).take s.len ++ [v])
      ++ List.replicate (newCap - (s.len + 1)) ""
    ({ w with arrays := w.arrays ++ [newArr] }, ⟨w.arrays.length, s.len + 1, newCap⟩)

/-- Model of http.Header.Add on a builder container: append v to the
slice stored under the canonical key (the nil slice when the key is
absent) and store the resulting slice back under the key. -/
def World.headerAdd (w : World) (hi : Nat) (k v : String) : World :=
  let ck := canonicalKey k
  let hm := w.hmAt hi
  let p := appendSlice w ((lookupEntry ck hm.entries).getD nilSlice) v
  { p.1 with headers := p.1.headers.set hi (HeaderMap.mk (setEntrySlice ck p.2 hm.entries)) }

/-- Model of http.Header.Set on a builder container: allocate a fresh
one-element backing array holding v and store a fresh slice under the
canonical key. -/
def World.headerSet (w : World) (hi : Nat) (k v : String) : World :=
  let ck := canonicalKey k
  let hm := w.hmAt hi
  { w with arrays := w.arrays ++ [[v]],
           headers := w.headers.set hi
             (HeaderMap.mk (setEntrySlice ck ⟨w.arrays.length, 1, 1⟩ hm.entries)) }

def World.shapeAt (w : World) (i : Nat) : ShapeObj := w.shapes.getD i (ShapeObj.mk none)

def World.setShape (w : World) (i : Nat) (v : String) : World :=
  { w with shapes := w.shapes.set i (ShapeObj.mk (some v)) }

/-- The builder (Go type Request). Reference-valued Go fields are heap
indices: header is the index of the http.Header container, Success and
Failure the indices of the shape objects handed to SetSuccess/SetFailure,
client an index identifying the shared httpClient. -/
structure Request where
  client : Nat
  method : String
  url : String
  header : Nat
  query : Option QueryVal
  body : Option BodyVal
  Success : Option Nat
  Failure : Option Nat
deriving DecidableEq, Repr

/-- Package-level New: allocates a fresh client and a fresh empty header
container, method defaults to GET. -/
def New (w : World) : World × Request :=
  (⟨w.arrays, w.headers ++ [HeaderMap.mk []], w.shapes, w.clients + 1⟩,
   ⟨w.clients, "GET", "", w.headers.length, none, none, none, none⟩)

/-- Method New on an existing Request (derive): allocates a new header
container and range-copies the map entries into it; each entry still
holds the same slice header, so the backing array of every per-key
value list is shared with the source, exactly as the Go loop
headers[key] = value copies only the slice, not the strings under it.
Every other field of the record is copied, so the client, query, body,
Success and Failure references are shared with the source. -/
def Request.New (r : Request) (w : World) : World × Request :=
  (⟨w.arrays, w.headers ++ [HeaderMap.mk (w.hmAt r.header).entries], w.shapes, w.clients⟩,
   ⟨r.client, r.method, r.url, w.headers.length, r.query, r.body, r.Success, r.Failure⟩)

def Request.SetSuccess (r : Request) (s : Option Nat) : Request := { r with Success := s }

def Request.SetFailure (r : Request) (f : Option Nat) : Request := { r with Failure := f }

/-- SetHeader mutates the header container in place; the builder record
itself is unchanged (Go returns the same pointer). -/
def Request.SetHeader (r : Request) (k v : String) (w : World) : World × Request :=
  (w.headerSet r.header k v, r)

/-- AddHeader mutates the header container in place (possibly writing
into a backing array shared with a derived copy); the builder record
itself is unchanged (Go returns the same pointer). -/
def Request.AddHeader (r : Request) (k v : String) (w : World) : World × Request :=
  (w.headerAdd r.header k v, r)

def Request.SetQuery (r : Request) (q : Option QueryVal) : Request := { r with query := q }

def Request.SetBody (r : Request) (b : Option BodyVal) : Request := { r with body := b }

/-- setURL: parse and restringify; on parse failure the url field is
left unchanged (silent no-op). -/
def Request.setURL (r : Request) (address : String) : Request :=
  match parseURL address with
  | some u => { r with url := u.string }
  | none => r

def Request.Get (r : Request) (u : String) : Request :=
  ({ r with method := "GET" }).setURL u

def Request.Post (r : Request) (u : String) : Request :=
  ({ r with method := "POST" }).setURL u

def Request.Put (r : Request) (u : String) : Request :=
  ({ r with method := "PUT" }).setURL u

def Request.Head (r : Request) (u : String) : Request :=
  ({ r with method := "HEAD" }).setURL u

def Request.Delete (r : Request) (u : String) : Request :=
  ({ r with method := "DELETE" }).setURL u

def Request.Patch (r : Request) (u : String) : Request :=
  ({ r with method := "PATCH" }).setURL u

/-- The wire-ready descriptor (net/http Request). http.NewRequest gives
it an empty, freshly made header map. -/
structure HttpRequest where
  method : String
  reqURL : URL
  reqHeader : Header
  reqBody : Option String
deriving DecidableEq, Repr

/-- Model of http.NewRequest: parse the URL, attach the body bytes, and
give the descriptor an empty header map. -/
def newHttpRequest (method urlStr : String) (body : Option String) :
    Except GoError HttpRequest :=
  match parseURL urlStr with
  | some u => .ok (HttpRequest.mk method u (Header.mk []) body)
  | none => .error (.parseErr urlStr)

/-- Outcome of the Request() materializer. ok carries the returned
descriptor pointer, which the shadowing slip can leave nil while the
returned error is also nil; nilDeref is the run-time panic the slip
causes when the nil descriptor is then dereferenced. -/
inductive ReqOutcome where
  | ok (req : Option HttpRequest)
  | err (e : GoError)
  | nilDeref
deriving DecidableEq, Repr

/-- The query-attachment tail of Request(): encode r.query; on encoder
error skip silently and return the descriptor with a nil error; on
success write the encoding over RawQuery, dereferencing the descriptor. -/
def attachQuery (q : Option QueryVal) (req : Option HttpRequest) : ReqOutcome :=
  match queryValues q with
  | .error _ => .ok req
  | .ok vs =>
    match req with
    | none => .nilDeref
    | some rq => .ok (some { rq with reqURL := { rq.reqURL with rawQuery := encodeValues vs } })

/-- The Go method Request() (named buildRequest here because the method
shares its name with its receiver type): marshal the body when one is set, construct the base
descriptor, then attach the query. In the body branch the construction
error is assigned to a variable shadowed by the marshal error binding,
so the nil outer error lets control fall through to the query step with
a possibly nil descriptor; in the no-body branch the construction error
is propagated. -/
def Request.buildRequest (r : Request) : ReqOutcome :=
  match r.body with
  | some b =>
    match jsonMarshal b with
    | .error e => .err e
    | .ok bytes => attachQuery r.query (newHttpRequest r.method r.url (some bytes)).toOption
  | none =>
    match newHttpRequest r.method r.url none with
    | .error e => .err e
    | .ok rq => attachQuery r.query (some rq)

/-- Whether a response body unmarshals in the model: the text is brace
delimited (a stand-in for well-formed JSON). -/
def jsonWellFormed (s : String) : Bool :=
  s.toList.headD (Char.ofNat 32) = Char.ofNat 123 &&
  s.toList.getLastD (Char.ofNat 32) = Char.ofNat 125

/-- Model of json.Unmarshal into an interface slot: yields the decoded
payload or an unmarshal error. -/
def jsonUnmarshal (s : String) : Except GoError String :=
  if jsonWellFormed s then .ok s else .error (.unmarshalErr s)

/-- The transport reply (net/http Response as the package reads it):
status, header, the body bytes, and whether reading the body stream
fails. -/
structure Reply where
  statusCode : Nat
  header : Header
  body : String
  readErr : Bool
deriving DecidableEq, Repr

/-- The transport capability: what client.Do does with the descriptor
the package hands it (possibly nil, reachable through the shadowing
slip). -/
def Transport : Type := Option HttpRequest → Except GoError Reply

/-- The Response value returned by Execute. Success and Failure hold the
shape references copied from the builder by decodeResp, or none. -/
structure Response where
  StatusCode : Nat
  RHeader : Header
  Success : Option Nat
  Failure : Option Nat
deriving DecidableEq, Repr

/-- The fixed descriptive text do() wraps around a decode error. -/
def decodeRespPfx : String := "failed to decode API response: "

/-- decodeResp: on a 2xx status with a success shape declared, assign
the shape reference to Response.Success and unmarshal the body into the
shape object; on a non-2xx status with a failure shape declared, the
same through Response.Failure; otherwise do nothing and return no
error. Returns the updated heap, the updated response and the error. -/
def Request.decodeResp (r : Request) (w : World) (resp : Response) (body : String) :
    World × Response × Option GoError :=
  if 200 ≤ resp.StatusCode ∧ resp.StatusCode ≤ 299 then
    match r.Success with
    | some sref =>
      let resp2 := { resp with Success := some sref }
      match jsonUnmarshal body with
      | .ok v => (w.setShape sref v, resp2, none)
      | .error e => (w, resp2, some e)
    | none => (w, resp, none)
  else
    match r.Failure with
    | some fref =>
      let resp2 := { resp with Failure := some fref }
      match jsonUnmarshal body with
      | .ok v => (w.setShape fref v, resp2, none)
      | .error e => (w, resp2, some e)
    | none => (w, resp, none)

/-- Outcome of do/sendRequest/Execute: the final heap with the returned
(response, error) pair, or the nil-dereference panic inherited from the
materializer. -/
inductive ExecOutcome where
  | result (w : World) (resp : Option Response) (e : Option GoError)
  | nilDeref
deriving DecidableEq, Repr

/-- do(): call the transport; on transport error return (nil, err);
otherwise populate StatusCode and Header from the reply, read the body
(failure returns (nil, readErr)), run decodeResp, and wrap any decode
error with the fixed prefix while still returning the response. -/
def Request.doReq (r : Request) (t : Transport) (w : World) (req : Option HttpRequest) :
    ExecOutcome :=
  match t req with
  | .error e => .result w none (some e)
  | .ok reply =>
    let response1 : Response := ⟨reply.statusCode, reply.header, none, none⟩
    if reply.readErr then
      .result w none (some .bodyReadErr)
    else
      match r.decodeResp w response1 reply.body with
      | (w2, response2, some e) =>
        .result w2 (some response2) (some (.wrapped decodeRespPfx e))
      | (w2, response2, none) => .result w2 (some response2) none

/-- sendRequest: materialize via Request(); propagate a materializer
error with a nil response; otherwise hand the descriptor to do(). -/
def Request.sendRequest (r : Request) (t : Transport) (w : World) : ExecOutcome :=
  match r.buildRequest with
  | .err e => .result w none (some e)
  | .ok req => r.doReq t w req
  | .nilDeref => .nilDeref

/-- Execute delegates to sendRequest. -/
def Request.Execute (r : Request) (t : Transport) (w : World) : ExecOutcome :=
  r.sendRequest t w

/-
  Concrete fixtures used by counterexamples and witnesses.
-/

/-- A heap with one header container holding Client-Id: 1234 (a full
one-element slice into backing array 0) and two shape objects. -/
def exW : World :=
  ⟨[["1234"]], [HeaderMap.mk [("Client-Id", ⟨0, 1, 1⟩)]],
   [ShapeObj.mk none, ShapeObj.mk none], 1⟩

/-- A builder pointing at the container and url http://example.com. -/
def exR : Request := ⟨0, "GET", "http://example.com", 0, none, none, none, none⟩

/-- The descriptor exR materializes to. -/
def exHttp : HttpRequest := ⟨"GET", ⟨"http://example.com", ""⟩, Header.mk [], none⟩

/-- A transport replying 200 with a well-formed body. -/
def t200ok : Transport := fun _ => .ok ⟨200, Header.mk [("X-A", ["y"])], "\x7bok\x7d", false⟩

/-- A transport replying 200 with a body that fails to unmarshal. -/
def t200bad : Transport := fun _ => .ok ⟨200, Header.mk [("X-A", ["y"])], "oops", false⟩

/-- The slice-aliasing scenario, built through the public API from an
empty heap: add three values under key A (leaving a slice of length 3
and capacity 4), derive a copy, append a fourth value through the
source, then a fifth through the copy. -/
def c7s0 : World × Request := New ⟨[], [], [], 0⟩

def c7s1 : World × Request := c7s0.2.AddHeader "A" "1" c7s0.1

def c7s2 : World × Request := c7s1.2.AddHeader "A" "2" c7s1.1

def c7s3 : World × Request := c7s2.2.AddHeader "A" "3" c7s2.1

/-- The derived copy and the heap right after derivation. -/
def c7d : World × Request := c7s3.2.New c7s3.1

/-- The source builder appends a fourth value after derivation. -/
def c7s4 : World × Request := c7s3.2.AddHeader "A" "4" c7d.1

/-- The derived copy then appends a fifth value. -/
def c7s5 : World × Request := c7d.2.AddHeader "A" "5" c7s4.1

/-- The response slot of an execution outcome. -/
def ExecOutcome.respOf : ExecOutcome → Option Response
  | .result _ r _ => r
  | .nilDeref => none

/-- The error slot of an execution outcome. -/
def ExecOutcome.errOf : ExecOutcome → Option GoError
  | .result _ _ e => e
  | .nilDeref => none

/-- The body bytes a marshalable stored body produces (used to state
properties on the paths where marshalling does not fail). -/
def marshalledBody : Option BodyVal → Option String
  | none => none
  | some (.obj s) => some s
  | some .bad => none

/-- What it means for a method setter to set exactly the given verb,
store the normalized URL, and leave every other builder field alone. -/
def setsVerbOnly (setter : Request → String → Request) (verb : String) : Prop :=
  ∀ (r : Request) (u : String),
    (setter r u).method = verb ∧
    (setter r u).client = r.client ∧
    (setter r u).header = r.header ∧
    (setter r u).query = r.query ∧
    (setter r u).body = r.body ∧
    (setter r u).Success = r.Success ∧
    (setter r u).Failure = r.Failure ∧
    (setter r u).url = (match parseURL u with | some x => x.string | none => r.url)

/-- A response body that unmarshals in the model. -/
def goodBody : String := "\x7bok\x7d"

/-
  Helper lemmas.
-/

theorem getD_concat_length {α : Type} (l : List α) (x d : α) :
    (l ++ [x]).getD l.length d = x := by
  induction l with
  | nil => rfl
  | cons a as ih => simpa [List.getD] using ih

theorem getD_append_lt {α : Type} (l : List α) (x d : α) (i : Nat) (h : i < l.length) :
    (l ++ [x]).getD i d = l.getD i d := by
  induction l generalizing i with
  | nil => simp at h
  | cons a as ih =>
    cases i with
    | zero => rfl
    | succ j => simpa [List.getD] using ih j (by simpa using h)

theorem getD_set_ne {α : Type} (l : List α) (i j : Nat) (y d : α) (h : i ≠ j) :
    (l.set j y).getD i d = l.getD i d := by
  induction l generalizing i j with
  | nil => rfl
  | cons a as ih =>
    cases j with
    | zero =>
      cases i with
      | zero => exact absurd rfl h
      | succ i2 => rfl
    | succ j2 =>
      cases i with
      | zero => rfl
      | succ i2 => simpa [List.getD] using ih i2 j2 (by omega)

theorem toOption_eq_some {x : Except GoError HttpRequest} {a : HttpRequest}
    (h : x.toOption = some a) : x = Except.ok a := by
  cases x with
  | ok b => simpa [Except.toOption] using h
  | error e2 => simp [Except.toOption] at h

theorem newHttpRequest_inv {m u : String} {bb : Option String} {rq : HttpRequest}
    (h : newHttpRequest m u bb = Except.ok rq) :
    ∃ pu, parseURL u = some pu ∧ rq = HttpRequest.mk m pu (Header.mk []) bb := by
  unfold newHttpRequest at h
  split at h
  · exact ⟨_, by assumption, by injection h with h2; exact h2.symm⟩
  · exact absurd h (by simp)

theorem attachQuery_inv {q : Option QueryVal} {ro : Option HttpRequest} {req : HttpRequest}
    (h : attachQuery q ro = ReqOutcome.ok (some req)) :
    ∃ r0, ro = some r0 ∧
      ((∃ vs, queryValues q = Except.ok vs ∧
          req = { r0 with reqURL := { r0.reqURL with rawQuery := encodeValues vs } }) ∨
       (∃ e, queryValues q = Except.error e ∧ req = r0)) := by
  unfold attachQuery at h
  split at h
  case h_1 e heq =>
    injection h with h2
    exact ⟨req, h2, Or.inr ⟨e, heq, rfl⟩⟩
  case h_2 vs heq =>
    split at h
    · exact absurd h (by simp)
    case h_2 r0 =>
      injection h with h2
      injection h2 with h3
      exact ⟨r0, rfl, Or.inl ⟨vs, heq, h3.symm⟩⟩

theorem buildRequest_cases {r : Request} {req : HttpRequest}
    (h : r.buildRequest = ReqOutcome.ok (some req)) :
    (r.body = none ∧ ∃ rq, newHttpRequest r.method r.url none = Except.ok rq ∧
       attachQuery r.query (some rq) = ReqOutcome.ok (some req)) ∨
    (∃ b bytes, r.body = some b ∧ jsonMarshal b = Except.ok bytes ∧
       attachQuery r.query (newHttpRequest r.method r.url (some bytes)).toOption
         = ReqOutcome.ok (some req)) := by
  unfold Request.buildRequest at h
  split at h
  case h_1 b heqb =>
    split at h
    · exact absurd h (by simp)
    case h_2 bytes heqm => exact Or.inr ⟨b, bytes, heqb, heqm, h⟩
  case h_2 heqb =>
    split at h
    · exact absurd h (by simp)
    case h_2 rq heqn => exact Or.inl ⟨heqb, rq, heqn, h⟩

/-- Inversion of the materializer on the successful path: the descriptor
comes from parsing the stored url, its header map is empty, and its raw
query is the encoding of the query object when encoding succeeds or the
query parsed from the stored url when encoding fails. -/
theorem buildRequest_ok_inv (r : Request) (req : HttpRequest)
    (h : r.buildRequest = ReqOutcome.ok (some req)) :
    ∃ u, parseURL r.url = some u ∧ req.method = r.method ∧
      req.reqHeader = Header.mk [] ∧ req.reqURL.base = u.base ∧
      ((∃ vs, queryValues r.query = Except.ok vs ∧ req.reqURL.rawQuery = encodeValues vs) ∨
       (∃ e, queryValues r.query = Except.error e ∧ req.reqURL = u)) := by
  rcases buildRequest_cases h with ⟨hb, rq, hn, ha⟩ | ⟨b, bytes, hb, hm, ha⟩
  · rcases attachQuery_inv ha with ⟨r0, hro, hcase⟩
    have hn2 : newHttpRequest r.method r.url none = Except.ok r0 := by
      rw [hn]; exact congrArg Except.ok (Option.some.inj hro)
    rcases newHttpRequest_inv hn2 with ⟨pu, hpu, hrq⟩
    subst hrq
    rcases hcase with ⟨vs, hq, hreq⟩ | ⟨e, hq, hreq⟩ <;> subst hreq
    · exact ⟨pu, hpu, rfl, rfl, rfl, Or.inl ⟨vs, hq, rfl⟩⟩
    · exact ⟨pu, hpu, rfl, rfl, rfl, Or.inr ⟨e, hq, rfl⟩⟩
  · rcases attachQuery_inv ha with ⟨r0, hro, hcase⟩
    have hn2 : newHttpRequest r.method r.url (some bytes) = Except.ok r0 :=
      toOption_eq_some hro
    rcases newHttpRequest_inv hn2 with ⟨pu, hpu, hrq⟩
    subst hrq
    rcases hcase with ⟨vs, hq, hreq⟩ | ⟨e, hq, hreq⟩ <;> subst hreq
    · exact ⟨pu, hpu, rfl, rfl, rfl, Or.inl ⟨vs, hq, rfl⟩⟩
    · exact ⟨pu, hpu, rfl, rfl, rfl, Or.inr ⟨e, hq, rfl⟩⟩

/-
  Claim theorems.
-/

/-- C1: the claim says the descriptor produced by Request() and
submitted by Execute() carries the current header multi-map of the
builder. The code never attaches the builder headers: http.NewRequest
hands Request() a descriptor with a fresh empty header map and no later
step copies r.header onto it, so every materialized descriptor goes to
the transport with an empty header map, whatever was stored through
AddHeader/SetHeader. -/
theorem c1_outgoing_header_always_empty (r : Request) (req : HttpRequest)
    (h : r.buildRequest = ReqOutcome.ok (some req)) :
    req.reqHeader = Header.mk [] := by
  rcases buildRequest_ok_inv r req h with ⟨u, _, _, hh, _⟩
  exact hh

/-- C1 witness: a builder holding header Client-Id: 1234 materializes to
a descriptor whose header map is empty. -/
theorem c1_outgoing_header_always_empty_witness :
    exW.headerContent exR.header = [("Client-Id", ["1234"])] ∧
    exR.buildRequest = ReqOutcome.ok (some exHttp) ∧
    exHttp.reqHeader = Header.mk [] := by
  refine ⟨by rfl, by rfl, c1_outgoing_header_always_empty exR exHttp (by rfl)⟩

/-- C2 counterexample: a builder whose stored url embeds the query a=b
and that has no query object set does NOT keep its URL as stored: the
materializer encodes the nil query object to an empty value set and
overwrites the raw query with the empty string, erasing a=b. -/
theorem c2_counterexample :
    ({ exR with url := "http://example.com?a=b" } : Request).query = none ∧
    ({ exR with url := "http://example.com?a=b" } : Request).buildRequest
      = ReqOutcome.ok (some exHttp) ∧
    exHttp.reqURL.rawQuery = "" ∧
    exHttp.reqURL.string ≠ ({ exR with url := "http://example.com?a=b" } : Request).url := by
  refine ⟨rfl, by rfl, rfl, by decide⟩

/-- C2 amended: materializing overwrites the query component of the
descriptor whenever query encoding succeeds, which includes the case of
no query object set (go-querystring encodes a nil interface to an empty
value set, so any query embedded in the stored URL is erased); only when
encoding fails is the query component parsed from the stored URL kept. -/
theorem c2_query_overwrite (r : Request) (req : HttpRequest)
    (h : r.buildRequest = ReqOutcome.ok (some req)) :
    (∀ ps, r.query = some (QueryVal.obj ps) → req.reqURL.rawQuery = encodeValues ps) ∧
    (r.query = none → req.reqURL.rawQuery = "") ∧
    (r.query = some QueryVal.bad → ∃ u, parseURL r.url = some u ∧ req.reqURL = u) := by
  rcases buildRequest_ok_inv r req h with ⟨u, hu, _, _, _, hq⟩
  refine ⟨?_, ?_, ?_⟩
  · intro ps hps
    rcases hq with ⟨vs, hvs, hraw⟩ | ⟨e, he, _⟩
    · rw [hps] at hvs
      injection hvs with h2
      rw [hraw, h2]
    · rw [hps] at he; exact absurd he (by simp [queryValues])
  · intro hnone
    rcases hq with ⟨vs, hvs, hraw⟩ | ⟨e, he, _⟩
    · rw [hnone] at hvs
      injection hvs with h2
      rw [hraw, ← h2]
      rfl
    · rw [hnone] at he; exact absurd he (by simp [queryValues])
  · intro hbad
    rcases hq with ⟨vs, hvs, _⟩ | ⟨e, he, hrq⟩
    · rw [hbad] at hvs; exact absurd hvs (by simp [queryValues])
    · exact ⟨u, hu, hrq⟩

/-- C2 amended witness: a builder with query object encoding to
id=20, name=John materializes with exactly that raw query. -/
theorem c2_query_overwrite_witness :
    ({ exR with query := some (QueryVal.obj [("name", "John"), ("id", "20")]) } : Request).buildRequest
      = ReqOutcome.ok (some { exHttp with reqURL := ⟨"http://example.com", "id=20&name=John"⟩ }) ∧
    ({ exHttp with reqURL := ⟨"http://example.com", "id=20&name=John"⟩ } : HttpRequest).reqURL.rawQuery
      = encodeValues [("name", "John"), ("id", "20")] := by
  refine ⟨by rfl, ?_⟩
  exact (c2_query_overwrite
    { exR with query := some (QueryVal.obj [("name", "John"), ("id", "20")]) }
    { exHttp with reqURL := ⟨"http://example.com", "id=20&name=John"⟩ }
    (by rfl)).1 [("name", "John"), ("id", "20")] rfl

/-- C3: the claim says a failing construction of the base descriptor
makes Request() return a nil request with the construction error,
whether or not a body is set. The no-body branch does exactly that, but
in the body branch the construction error is assigned to a shadowed
variable, the nil check on the outer error passes, and the nil
descriptor is dereferenced at the query step: the code panics instead of
returning the error. This theorem evaluates both branches of the code at
the failing input. -/
theorem c3_shadowed_construction_error :
    (newHttpRequest "GET" "bad\x01url" (some "x")).isOk = false ∧
    ({ exR with url := "bad\x01url", body := some (BodyVal.obj "x") } : Request).buildRequest
      = ReqOutcome.nilDeref ∧
    ({ exR with url := "bad\x01url" } : Request).buildRequest
      = ReqOutcome.err (GoError.parseErr "bad\x01url") := by
  refine ⟨by rfl, by rfl, by rfl⟩

/-- C4 counterexample: the derived copy holds exactly the same Success
and Failure references as its source, so the result-shape slots are
shared, not duplicated as the claim states. -/
theorem c4_counterexample :
    (({ exR with Success := some 0, Failure := some 1 } : Request).New exW).2.Success
      = ({ exR with Success := some 0, Failure := some 1 } : Request).Success ∧
    (({ exR with Success := some 0, Failure := some 1 } : Request).New exW).2.Failure
      = ({ exR with Success := some 0, Failure := some 1 } : Request).Failure := by
  exact ⟨rfl, rfl⟩

/-- C4 amended: New() allocates a fresh header container (so the header
containers differ), but copies the Success and Failure fields as
references, so the result-shape slots of the copy hold the same
references as the source. -/
theorem c4_derive_sharing (w : World) (r : Request) (h : r.header < w.headers.length) :
    (r.New w).2.header ≠ r.header ∧
    (r.New w).2.Success = r.Success ∧
    (r.New w).2.Failure = r.Failure := by
  refine ⟨?_, rfl, rfl⟩
  show w.headers.length ≠ r.header
  omega

/-- C4 amended witness at a concrete heap and builder. -/
theorem c4_derive_sharing_witness :
    (({ exR with Success := some 0, Failure := some 1 } : Request).New exW).2.header
      ≠ ({ exR with Success := some 0, Failure := some 1 } : Request).header ∧
    (({ exR with Success := some 0, Failure := some 1 } : Request).New exW).2.Success
      = some 0 := by
  exact ⟨(c4_derive_sharing exW { exR with Success := some 0, Failure := some 1 }
    (by decide)).1, rfl⟩

/-- C5: status-driven decode dispatch. On a 2xx status with a success
shape declared, the shape reference is assigned to Response.Success
(with the body written into the shape object when it unmarshals) and
Response.Failure stays unset; on a non-2xx status with a failure shape
declared, symmetrically; with no shape declared for the observed class,
nothing is decoded, both slots stay unset and no error results. -/
theorem c5_decode_dispatch (r : Request) (w : World) (resp : Response) (body : String)
    (hS : resp.Success = none) (hF : resp.Failure = none) :
    (∀ sref, 200 ≤ resp.StatusCode → resp.StatusCode ≤ 299 → r.Success = some sref →
      ((r.decodeResp w resp body).2.1.Success = some sref ∧
       (r.decodeResp w resp body).2.1.Failure = none ∧
       (jsonWellFormed body = true →
         r.decodeResp w resp body
           = (w.setShape sref body, { resp with Success := some sref }, none)))) ∧
    (∀ fref, ¬(200 ≤ resp.StatusCode ∧ resp.StatusCode ≤ 299) → r.Failure = some fref →
      ((r.decodeResp w resp body).2.1.Failure = some fref ∧
       (r.decodeResp w resp body).2.1.Success = none ∧
       (jsonWellFormed body = true →
         r.decodeResp w resp body
           = (w.setShape fref body, { resp with Failure := some fref }, none)))) ∧
    ((200 ≤ resp.StatusCode ∧ resp.StatusCode ≤ 299) → r.Success = none →
      r.decodeResp w resp body = (w, resp, none)) ∧
    (¬(200 ≤ resp.StatusCode ∧ resp.StatusCode ≤ 299) → r.Failure = none →
      r.decodeResp w resp body = (w, resp, none)) := by
  refine ⟨?_, ?_, ?_, ?_⟩
  · intro sref h1 h2 hs
    unfold Request.decodeResp jsonUnmarshal
    rw [if_pos ⟨h1, h2⟩, hs]
    by_cases hw : jsonWellFormed body = true
    · rw [if_pos hw]
      exact ⟨rfl, hF, fun _ => rfl⟩
    · rw [if_neg hw]
      exact ⟨rfl, hF, fun hw2 => absurd hw2 hw⟩
  · intro fref h1 hf
    unfold Request.decodeResp jsonUnmarshal
    rw [if_neg h1, hf]
    by_cases hw : jsonWellFormed body = true
    · rw [if_pos hw]
      exact ⟨rfl, hS, fun _ => rfl⟩
    · rw [if_neg hw]
      exact ⟨rfl, hS, fun hw2 => absurd hw2 hw⟩
  · intro h12 hs
    unfold Request.decodeResp
    rw [if_pos h12, hs]
  · intro h1 hf
    unfold Request.decodeResp
    rw [if_neg h1, hf]

/-- C5 witness: a 200 reply with a declared success shape assigns the
shape reference to Success and leaves Failure unset. -/
theorem c5_decode_dispatch_witness :
    (({ exR with Success := some 0 } : Request).decodeResp exW
       ⟨200, Header.mk [], none, none⟩ goodBody).2.1.Success = some 0 ∧
    (({ exR with Success := some 0 } : Request).decodeResp exW
       ⟨200, Header.mk [], none, none⟩ goodBody).2.1.Failure = none := by
  have h := (c5_decode_dispatch { exR with Success := some 0 } exW
    ⟨200, Header.mk [], none, none⟩ goodBody rfl rfl).1 0 (by decide) (by decide) rfl
  exact ⟨h.1, h.2.1⟩

/-- C6: when the transport replies, the body stream reads fully, a shape
is declared for the observed status class and its unmarshal fails,
Execute returns an error wrapping the unmarshal error with the fixed
prefix together with a non-nil Response populated with the reply status
and header. -/
theorem c6_decode_failure (r : Request) (t : Transport) (w : World) (req : Option HttpRequest)
    (reply : Reply) (e : GoError) (sref : Nat)
    (hm : r.buildRequest = ReqOutcome.ok req)
    (ht : t req = Except.ok reply)
    (hread : reply.readErr = false)
    (hshape : ((200 ≤ reply.statusCode ∧ reply.statusCode ≤ 299) ∧ r.Success = some sref) ∨
              (¬(200 ≤ reply.statusCode ∧ reply.statusCode ≤ 299) ∧ r.Failure = some sref))
    (hu : jsonUnmarshal reply.body = Except.error e) :
    (r.Execute t w).errOf = some (GoError.wrapped decodeRespPfx e) ∧
    (r.Execute t w).respOf.map Response.StatusCode = some reply.statusCode ∧
    (r.Execute t w).respOf.map Response.RHeader = some reply.header := by
  have h1 : r.Execute t w = r.doReq t w req := by
    unfold Request.Execute Request.sendRequest
    rw [hm]
  have h2 : r.doReq t w req
      = (match r.decodeResp w ⟨reply.statusCode, reply.header, none, none⟩ reply.body with
         | (w2, response2, some e2) =>
             ExecOutcome.result w2 (some response2) (some (GoError.wrapped decodeRespPfx e2))
         | (w2, response2, none) => ExecOutcome.result w2 (some response2) none) := by
    unfold Request.doReq
    rw [ht]
    simp only [hread, Bool.false_eq_true, if_false]
  rcases hshape with ⟨hcl, hs⟩ | ⟨hcl, hf⟩
  · have h3 : r.decodeResp w ⟨reply.statusCode, reply.header, none, none⟩ reply.body
        = (w, { StatusCode := reply.statusCode, RHeader := reply.header,
                Success := some sref, Failure := none }, some e) := by
      unfold Request.decodeResp
      rw [if_pos hcl, hs, hu]
    rw [h1, h2, h3]
    exact ⟨rfl, rfl, rfl⟩
  · have h3 : r.decodeResp w ⟨reply.statusCode, reply.header, none, none⟩ reply.body
        = (w, { StatusCode := reply.statusCode, RHeader := reply.header,
                Success := none, Failure := some sref }, some e) := by
      unfold Request.decodeResp
      rw [if_neg hcl, hf, hu]
    rw [h1, h2, h3]
    exact ⟨rfl, rfl, rfl⟩

/-- C6 witness: a 200 reply whose body fails to unmarshal into the
declared success shape yields the wrapped decode error and a response
carrying the reply status and header. -/
theorem c6_decode_failure_witness :
    (({ exR with Success := some 0 } : Request).Execute t200bad exW).errOf
      = some (GoError.wrapped decodeRespPfx (GoError.unmarshalErr "oops")) ∧
    (({ exR with Success := some 0 } : Request).Execute t200bad exW).respOf.map
      Response.StatusCode = some 200 := by
  have h := c6_decode_failure { exR with Success := some 0 } t200bad exW (some exHttp)
    ⟨200, Header.mk [("X-A", ["y"])], "oops", false⟩ (GoError.unmarshalErr "oops") 0
    (by rfl) (by rfl) rfl (Or.inl ⟨by decide, rfl⟩) (by rfl)
  exact ⟨h.1, h.2.1⟩

/-- C7: the claim says any later AddHeader/SetHeader applied to the
derived copy leaves the observable content of the source headers
unchanged (and vice versa). The code violates it through slice
aliasing: New() range-copies the map but shares each []string backing
array, and append writes in place when spare capacity remains. After
AddHeader A:1, A:2, A:3 (slice length 3, capacity 4), deriving, and the
source appending 4 in place, the copy appending 5 writes into index 3
of the same backing array, changing what the source observes from
[1,2,3,4] to [1,2,3,5]. This theorem evaluates the embedding over that
scenario: the derived container is distinct and content-equal at
derivation and the client is shared, yet the copy mutation changes the
source content. -/
theorem c7_aliasing_leak :
    c7d.2.header ≠ c7s3.2.header ∧
    c7d.2.client = c7s3.2.client ∧
    c7d.1.headerContent c7d.2.header = c7d.1.headerContent c7s3.2.header ∧
    c7s4.1.headerContent c7s3.2.header = [("A", ["1", "2", "3", "4"])] ∧
    c7s5.1.headerContent c7s3.2.header = [("A", ["1", "2", "3", "5"])] ∧
    c7s5.1.headerContent c7s3.2.header ≠ c7s4.1.headerContent c7s3.2.header := by
  refine ⟨by decide, rfl, by rfl, by rfl, by rfl, by decide⟩

/-- C8: a query object on which encoding fails is silently ignored: the
materializer still returns a descriptor with a nil error, the query
component stays exactly what was parsed from the stored URL (no encoded
query string is attached), and Execute proceeds to hand the descriptor
to the transport instead of aborting. -/
theorem c8_query_error_swallowed (r : Request) (u : URL) (t : Transport) (w : World)
    (hq : r.query = some QueryVal.bad)
    (hurl : parseURL r.url = some u)
    (hbody : r.body = none ∨ ∃ s, r.body = some (BodyVal.obj s)) :
    r.buildRequest
      = ReqOutcome.ok (some ⟨r.method, u, Header.mk [], marshalledBody r.body⟩) ∧
    r.Execute t w
      = r.doReq t w (some ⟨r.method, u, Header.mk [], marshalledBody r.body⟩) := by
  have hb : r.buildRequest
      = ReqOutcome.ok (some ⟨r.method, u, Header.mk [], marshalledBody r.body⟩) := by
    unfold Request.buildRequest
    rcases hbody with hn | ⟨s, hs⟩
    · rw [hn]
      unfold newHttpRequest
      rw [hurl]
      unfold attachQuery
      rw [hq]
      rfl
    · rw [hs]
      unfold newHttpRequest
      rw [hurl]
      unfold attachQuery
      rw [hq]
      rfl
  refine ⟨hb, ?_⟩
  unfold Request.Execute Request.sendRequest
  rw [hb]

/-- C8 witness: a builder with a bad query object and an embedded query
in its URL materializes error-free with the embedded query kept, and
Execute reaches the transport. -/
theorem c8_query_error_swallowed_witness :
    ({ exR with url := "http://example.com?a=b", query := some QueryVal.bad } : Request).buildRequest
      = ReqOutcome.ok (some ⟨"GET", ⟨"http://example.com", "a=b"⟩, Header.mk [], none⟩) ∧
    ({ exR with url := "http://example.com?a=b", query := some QueryVal.bad } : Request).Execute
        t200ok exW
      = ({ exR with url := "http://example.com?a=b", query := some QueryVal.bad } : Request).doReq
          t200ok exW (some ⟨"GET", ⟨"http://example.com", "a=b"⟩, Header.mk [], none⟩) := by
  exact c8_query_error_swallowed
    { exR with url := "http://example.com?a=b", query := some QueryVal.bad }
    ⟨"http://example.com", "a=b"⟩ t200ok exW rfl (by rfl) (Or.inl rfl)

/-- C9 counterexample: the claim says each method setter changes no
field other than method, but Get also stores its URL argument into the
url field. -/
theorem c9_counterexample :
    (({ exR with url := "" } : Request).Get "http://other.com").method = "GET" ∧
    (({ exR with url := "" } : Request).Get "http://other.com").url
      ≠ ({ exR with url := "" } : Request).url := by
  refine ⟨by rfl, by decide⟩

/-- C9 amended: each method setter sets exactly the corresponding verb
and additionally normalizes and stores the URL argument in the url field
(left unchanged when parsing fails); every other builder field is
unchanged. -/
theorem c9_method_setters :
    setsVerbOnly Request.Get "GET" ∧ setsVerbOnly Request.Post "POST" ∧
    setsVerbOnly Request.Put "PUT" ∧ setsVerbOnly Request.Patch "PATCH" ∧
    setsVerbOnly Request.Delete "DELETE" ∧ setsVerbOnly Request.Head "HEAD" := by
  refine ⟨?_, ?_, ?_, ?_, ?_, ?_⟩ <;>
  · intro r u
    simp only [setsVerbOnly, Request.Get, Request.Post, Request.Put, Request.Patch,
      Request.Delete, Request.Head, Request.setURL]
    cases hp : parseURL u <;> simp [hp]

theorem decodeResp_world (r : Request) (w : World) (resp : Response) (body : String) :
    (r.decodeResp w resp body).1 = w ∨
    (∃ sref v, r.Success = some sref ∧ (r.decodeResp w resp body).1 = w.setShape sref v) ∨
    (∃ fref v, r.Failure = some fref ∧ (r.decodeResp w resp body).1 = w.setShape fref v) := by
  unfold Request.decodeResp
  split
  · cases hs : r.Success with
    | none => exact Or.inl rfl
    | some sref =>
      cases hu : jsonUnmarshal body with
      | ok v => exact Or.inr (Or.inl ⟨sref, v, rfl, rfl⟩)
      | error e => exact Or.inl rfl
  · cases hf : r.Failure with
    | none => exact Or.inl rfl
    | some fref =>
      cases hu : jsonUnmarshal body with
      | ok v => exact Or.inr (Or.inr ⟨fref, v, rfl, rfl⟩)
      | error e => exact Or.inl rfl

theorem setShape_headers (w : World) (i : Nat) (v : String) :
    (w.setShape i v).headers = w.headers := rfl

theorem setShape_arrays (w : World) (i : Nat) (v : String) :
    (w.setShape i v).arrays = w.arrays := rfl

theorem setShape_clients (w : World) (i : Nat) (v : String) :
    (w.setShape i v).clients = w.clients := rfl

theorem setShape_shapeAt_ne (w : World) (i j : Nat) (v : String) (h : j ≠ i) :
    (w.setShape i v).shapeAt j = w.shapeAt j := by
  unfold World.setShape World.shapeAt
  exact getD_set_ne _ _ _ _ _ h

theorem doReq_world (r : Request) (t : Transport) (w w2 : World)
    (req : Option HttpRequest) (resp : Option Response) (e : Option GoError)
    (h : r.doReq t w req = ExecOutcome.result w2 resp e) :
    w2 = w ∨
    (∃ sref v, r.Success = some sref ∧ w2 = w.setShape sref v) ∨
    (∃ fref v, r.Failure = some fref ∧ w2 = w.setShape fref v) := by
  unfold Request.doReq at h
  split at h
  · injection h with hw _ _
    exact Or.inl hw.symm
  case h_2 reply heq =>
    split at h
    · injection h with hw _ _
      exact Or.inl hw.symm
    · simp only [] at h
      split at h
      case h_1 w3 response2 e2 heq2 =>
        injection h with hw _ _
        rcases decodeResp_world r w
            ⟨reply.statusCode, reply.header, none, none⟩ reply.body with h0 | h0 | h0
        · rw [heq2] at h0
          exact Or.inl (hw ▸ h0)
        · rcases h0 with ⟨sref, v, hs, h1⟩
          rw [heq2] at h1
          exact Or.inr (Or.inl ⟨sref, v, hs, hw ▸ h1⟩)
        · rcases h0 with ⟨fref, v, hf, h1⟩
          rw [heq2] at h1
          exact Or.inr (Or.inr ⟨fref, v, hf, hw ▸ h1⟩)
      case h_2 w3 response2 heq2 =>
        injection h with hw _ _
        rcases decodeResp_world r w
            ⟨reply.statusCode, reply.header, none, none⟩ reply.body with h0 | h0 | h0
        · rw [heq2] at h0
          exact Or.inl (hw ▸ h0)
        · rcases h0 with ⟨sref, v, hs, h1⟩
          rw [heq2] at h1
          exact Or.inr (Or.inl ⟨sref, v, hs, hw ▸ h1⟩)
        · rcases h0 with ⟨fref, v, hf, h1⟩
          rw [heq2] at h1
          exact Or.inr (Or.inr ⟨fref, v, hf, hw ▸ h1⟩)

/-- C10: Execute never touches the builder or its header container: the
heap of header containers, the backing arrays of their value slices and
the client count after an execution are exactly what they were before,
and every shape object other than the ones the builder holds in Success
and Failure is unchanged (decoding writes only through those two
references). The builder record and the materializer are read-only by
construction: buildRequest takes no heap and returns none, and no
embedded operation of the execution pipeline returns a modified
builder. -/
theorem c10_execute_preserves_builder_state (r : Request) (t : Transport) (w w2 : World)
    (resp : Option Response) (e : Option GoError)
    (h : r.Execute t w = ExecOutcome.result w2 resp e) :
    w2.headers = w.headers ∧ w2.arrays = w.arrays ∧ w2.clients = w.clients ∧
    ∀ i, r.Success ≠ some i → r.Failure ≠ some i → w2.shapeAt i = w.shapeAt i := by
  unfold Request.Execute Request.sendRequest at h
  have hw : w2 = w ∨
      (∃ sref v, r.Success = some sref ∧ w2 = w.setShape sref v) ∨
      (∃ fref v, r.Failure = some fref ∧ w2 = w.setShape fref v) := by
    split at h
    · injection h with hw _ _
      exact Or.inl hw.symm
    · exact doReq_world r t w w2 _ resp e h
    · exact absurd h (by simp)
  rcases hw with hw | hw | hw
  · subst hw
    exact ⟨rfl, rfl, rfl, fun i _ _ => rfl⟩
  · rcases hw with ⟨sref, v, hs, hw⟩
    subst hw
    refine ⟨setShape_headers w sref v, setShape_arrays w sref v, setShape_clients w sref v, ?_⟩
    intro i hi _
    exact setShape_shapeAt_ne w sref i v (fun heq => hi (heq ▸ hs))
  · rcases hw with ⟨fref, v, hf, hw⟩
    subst hw
    refine ⟨setShape_headers w fref v, setShape_arrays w fref v, setShape_clients w fref v, ?_⟩
    intro i _ hi
    exact setShape_shapeAt_ne w fref i v (fun heq => hi (heq ▸ hf))

/-- C10 witness: a decode-success execution writes only the shape object
referenced by Success; the header heap, the backing arrays, the client
count and the other shape object are unchanged. -/
theorem c10_execute_preserves_builder_state_witness :
    (exW.setShape 0 goodBody).headers = exW.headers ∧
    (exW.setShape 0 goodBody).arrays = exW.arrays ∧
    (exW.setShape 0 goodBody).clients = exW.clients ∧
    (exW.setShape 0 goodBody).shapeAt 1 = exW.shapeAt 1 := by
  have h := c10_execute_preserves_builder_state { exR with Success := some 0 } t200ok exW
    (exW.setShape 0 goodBody)
    (some ⟨200, Header.mk [("X-A", ["y"])], some 0, none⟩) none (by rfl)
  exact ⟨h.1, h.2.1, h.2.2.1, h.2.2.2 1 (by decide) (by decide)⟩
